import Mathlib

/-!
Shallow embedding of the MNA solver core of `src/sim.rs`
(audio-circuit-sim) and proofs about the specified behaviour.

Modelling conventions:
* `f64` values are modelled as exact rationals (`ℚ`) wherever the source
  only performs field arithmetic (cells, stamps, system resizing), and as
  real numbers (`ℝ`) where transcendental functions occur (the PN-junction
  model, the unit formatter's `log10`).
* Rust `Vec` is modelled as `List`; `resize_with(n, Default::default)` is
  `resizeD`; out-of-range indexing, which panics in Rust, is modelled by
  total `getD`/`set` operations, and theorems carry the in-range
  hypotheses under which the two agree.
* Debug label strings built with `format_unit_value` in the source are
  carried as a fixed marker (`unit_label`), since decimal rendering of
  `f64` is not modelled and no algorithmic decision reads the labels.
-/

/-! ### Constants (src/sim.rs lines 1–14) -/

/-- Rust `const G_MIN: f64 = 1e-12;` -/
def G_MIN : ℚ := 1e-12

/-- Rust `const V_TOLERANCE: f64 = 5e-5;` -/
def V_TOLERANCE : ℚ := 5e-5

/-- Rust `const V_THERMAL: f64 = 0.026;` -/
def V_THERMAL : ℚ := 0.026

/-- Rust `const MAX_ITER: u32 = 200;` -/
def MAX_ITER : ℕ := 200

/-! ### MNACell -/

/-- One entry of the matrix `A` or vector `b` (struct `MNACell`). -/
structure MNACell where
  g : ℚ
  g_timed : ℚ
  g_dyn : List ℕ
  lu : ℚ
  pre_lu : ℚ
  txt : String
deriving DecidableEq

instance : Inhabited MNACell :=
  ⟨{ g := 0, g_timed := 0, g_dyn := [], lu := 0, pre_lu := 0, txt := "" }⟩

/-- Rust `MNACell::init_lu`: `pre_lu = g + g_timed * step_scale`. -/
def MNACell.init_lu (cell : MNACell) (step_scale : ℚ) : MNACell :=
  { cell with pre_lu := cell.g + cell.g_timed * step_scale }

/-- Total list indexing with a default element, modelling Rust `v[i]`
(which panics out of range; theorems carry the in-range hypotheses). -/
def nthD {α : Type} (xs : List α) (i : ℕ) (d : α) : α :=
  match xs, i with
  | [], _ => d
  | x :: _, 0 => x
  | _ :: t, j + 1 => nthD t j d

/-- Rust `MNACell::update_pre`: `lu = pre_lu; for index in g_dyn { lu += vars[index] }`. -/
def MNACell.update_pre (cell : MNACell) (vars : List ℚ) : MNACell :=
  { cell with lu := cell.g_dyn.foldl (fun acc i => acc + nthD vars i 0) cell.pre_lu }

/-! ### Node info -/

inductive InfoType where
  | VOLTAGE
  | CURRENT
  | COUNT
deriving DecidableEq

/-- Struct `MNANodeInfo`. -/
structure MNANodeInfo where
  info_type : InfoType
  scale : ℚ
  name : String
deriving DecidableEq

/-- Rust `MNANodeInfo::new_voltage(n)`. -/
def MNANodeInfo.new_voltage (n : ℕ) : MNANodeInfo :=
  { info_type := InfoType.VOLTAGE, scale := 1, name := "v" ++ toString n }

/-- Rust `MNANodeInfo::new_voltage_with_name(name)`. -/
def MNANodeInfo.new_voltage_with_name (name : String) : MNANodeInfo :=
  { info_type := InfoType.VOLTAGE, scale := 1, name := name }

/-- Rust `MNANodeInfo::new_voltage_with_name_and_scale(name, scale)`. -/
def MNANodeInfo.new_voltage_with_name_and_scale (name : String) (scale : ℚ) : MNANodeInfo :=
  { info_type := InfoType.VOLTAGE, scale := scale, name := name }

/-- Rust `MNANodeInfo::new_current(name)`. -/
def MNANodeInfo.new_current (name : String) : MNANodeInfo :=
  { info_type := InfoType.CURRENT, scale := 1, name := name }

/-- Rust `MNANodeInfo::new_current_with_scale(name, scale)`. -/
def MNANodeInfo.new_current_with_scale (name : String) (scale : ℚ) : MNANodeInfo :=
  { info_type := InfoType.CURRENT, scale := scale, name := name }

/-! ### Vec resize_with -/

/-- Model of Rust `Vec::resize_with(n, ...)` producing default elements:
truncate to `n` items or pad with `d` up to `n` items. -/
def resizeD {α : Type} (xs : List α) (n : ℕ) (d : α) : List α :=
  xs.take n ++ List.replicate (n - xs.length) d

/-! ### MNASystem -/

/-- Struct `MNASystem`: matrix `A` (row-major), vector `b`, node metadata,
time, size, and the dynamic-variable pool `vars`. -/
structure MNASystem where
  nodes : List MNANodeInfo
  a_matrix : List (List MNACell)
  b : List MNACell
  time : ℚ
  net_size : ℕ
  vars : List ℚ
deriving DecidableEq

/-- Rust `MNASystem::default()`. -/
def MNASystem.empty : MNASystem :=
  { nodes := [], a_matrix := [], b := [], time := 0, net_size := 0, vars := [] }

/-- Rust `MNASystem::set_size(n)`: resize `A` (outer then each row) and `b` to
`n`, and rebuild `nodes` from scratch (`self.nodes.clear()` followed by
pushing `new_voltage(i)` for `i` in `0..n`). -/
def MNASystem.set_size (m : MNASystem) (n : ℕ) : MNASystem :=
  { m with
    a_matrix := (resizeD m.a_matrix n []).map (fun row => resizeD row n default),
    b := resizeD m.b n default,
    nodes := (List.range n).map MNANodeInfo.new_voltage,
    net_size := n }

/-- In-place update of the single matrix cell `A[r][c]` — the common
shape of `stamp_static`, `stamp_timed` and `add_dynamic_a`. -/
def MNASystem.modifyA (m : MNASystem) (r c : ℕ) (f : MNACell → MNACell) : MNASystem :=
  let row := nthD m.a_matrix r []
  let row2 := row.set c (f (nthD row c default))
  { m with a_matrix := m.a_matrix.set r row2 }

/-- In-place update of the single cell `b[r]`. -/
def MNASystem.modifyB (m : MNASystem) (r : ℕ) (f : MNACell → MNACell) : MNASystem :=
  { m with b := m.b.set r (f (nthD m.b r default)) }

/-- Rust `MNASystem::stamp_static(value, r, c, txt)`: `A[r][c].g += value`,
`A[r][c].txt += txt`. -/
def MNASystem.stamp_static (m : MNASystem) (value : ℚ) (r c : ℕ) (txt : String) : MNASystem :=
  m.modifyA r c (fun cell => { cell with g := cell.g + value, txt := cell.txt ++ txt })

/-- Rust `MNASystem::stamp_timed(value, r, c, txt)`: `A[r][c].g_timed += value`,
`A[r][c].txt += txt`. -/
def MNASystem.stamp_timed (m : MNASystem) (value : ℚ) (r c : ℕ) (txt : String) : MNASystem :=
  m.modifyA r c (fun cell => { cell with g_timed := cell.g_timed + value, txt := cell.txt ++ txt })

/-- Rust `MNASystem::reserve()`: remember the old size, grow by one via
`set_size`, return the old size as the fresh net index. -/
def MNASystem.reserve (m : MNASystem) : ℕ × MNASystem :=
  (m.net_size, m.set_size (m.net_size + 1))

/-- Rust `MNASystem::reserve_dynamic()`: push `0.0` onto `vars`, return its index. -/
def MNASystem.reserve_dynamic (m : MNASystem) : ℕ × MNASystem :=
  (m.vars.length, { m with vars := m.vars ++ [0] })

/-- Rust `MNASystem::set_dynamic(index, v)`. -/
def MNASystem.set_dynamic (m : MNASystem) (index : ℕ) (v : ℚ) : MNASystem :=
  { m with vars := m.vars.set index v }

/-- Rust `MNASystem::add_dynamic_b(r, index, text)`: push `index` on
`b[r].g_dyn` and overwrite `b[r].txt`. -/
def MNASystem.add_dynamic_b (m : MNASystem) (r : ℕ) (index : ℕ) (text : String) : MNASystem :=
  m.modifyB r (fun cell => { cell with g_dyn := cell.g_dyn ++ [index], txt := text })

/-- Rust `MNASystem::add_dynamic_a(r, c, index, text)`: push `index` on
`A[r][c].g_dyn` and overwrite `A[r][c].txt`. -/
def MNASystem.add_dynamic_a (m : MNASystem) (r c : ℕ) (index : ℕ) (text : String) : MNASystem :=
  m.modifyA r c (fun cell => { cell with g_dyn := cell.g_dyn ++ [index], txt := text })

/-- Assignment `m.nodes[i] = info` as done by component stamps. -/
def MNASystem.set_node (m : MNASystem) (i : ℕ) (info : MNANodeInfo) : MNASystem :=
  { m with nodes := m.nodes.set i info }

/-- Read accessor for a matrix cell (Rust `m.a_matrix[r][c]`). -/
def MNASystem.aCell (m : MNASystem) (r c : ℕ) : MNACell :=
  nthD (nthD m.a_matrix r []) c default

/-- Read accessor for a right-hand-side cell (Rust `m.b[r]`). -/
def MNASystem.bCell (m : MNASystem) (r : ℕ) : MNACell :=
  nthD m.b r default

/-! ### Devices (ℚ side) -/

/-- Debug label carrying a component value; the source renders the value
through `format_unit_value`. Decimal rendering of `f64` is not modelled,
so the label keeps a fixed marker; no algorithmic decision reads labels. -/
def unit_label (_v : ℚ) (unit : String) : String := "~" ++ unit

/-- Struct `Resistor`. -/
structure Resistor where
  r : ℚ
  l0 : ℕ
  l1 : ℕ
deriving DecidableEq

/-- Rust `Resistor::new(m, r, l0, l1)`: performs no validation and does not
touch the system; it just stores the fields. -/
def Resistor.new (m : MNASystem) (r : ℚ) (l0 l1 : ℕ) : Resistor × MNASystem :=
  ({ r := r, l0 := l0, l1 := l1 }, m)

/-- Rust `Resistor::stamp`. -/
def Resistor.stamp (rs : Resistor) (m : MNASystem) : MNASystem :=
  let g := 1 / rs.r
  let txt := "R" ++ unit_label rs.r ""
  let m := m.stamp_static g rs.l0 rs.l0 ("+" ++ txt)
  let m := m.stamp_static (-g) rs.l0 rs.l1 ("-" ++ txt)
  let m := m.stamp_static (-g) rs.l1 rs.l0 ("-" ++ txt)
  m.stamp_static g rs.l1 rs.l1 ("+" ++ txt)

/-- Struct `Capacitor`. -/
structure Capacitor where
  c : ℚ
  l0 : ℕ
  l1 : ℕ
  l2 : ℕ
  state_var : ℚ
  dyn_index : ℕ
  voltage : ℚ
deriving DecidableEq

/-- Rust `Capacitor::new(m, c, l0, l1)`: reserve one internal net and one
dynamic slot; no validation of `c` or the pin indices. -/
def Capacitor.new (m : MNASystem) (c : ℚ) (l0 l1 : ℕ) : Capacitor × MNASystem :=
  let r1 := m.reserve
  let r2 := r1.2.reserve_dynamic
  ({ c := c, l0 := l0, l1 := l1, l2 := r1.1,
     state_var := 0, dyn_index := r2.1, voltage := 0 }, r2.2)

/-- Rust `Capacitor::update_dynamic`. -/
def Capacitor.update_dynamic (cp : Capacitor) (m : MNASystem) : MNASystem :=
  m.set_dynamic cp.dyn_index cp.state_var

/-- Rust `Capacitor::stamp` (src/sim.rs lines 320–366). -/
def Capacitor.stamp (cp : Capacitor) (m : MNASystem) : MNASystem :=
  let txt := unit_label cp.c "F"
  let g := 2 * cp.c
  let m := m.stamp_timed 1 cp.l0 cp.l2 "+t"
  let m := m.stamp_timed (-1) cp.l1 cp.l2 "-t"
  let m := m.stamp_timed (-g) cp.l0 cp.l0 ("-t*" ++ txt)
  let m := m.stamp_timed g cp.l0 cp.l1 ("+t*" ++ txt)
  let m := m.stamp_timed g cp.l1 cp.l0 ("+t*" ++ txt)
  let m := m.stamp_timed (-g) cp.l1 cp.l1 ("-t*" ++ txt)
  let m := m.stamp_static (2 * g) cp.l2 cp.l0 ("+2*" ++ txt)
  let m := m.stamp_static (-(2 * g)) cp.l2 cp.l1 ("-2*" ++ txt)
  let m := m.stamp_static (-1) cp.l2 cp.l2 "-1"
  let m := m.add_dynamic_b cp.l2 cp.dyn_index
    ("q:C:" ++ toString cp.l0 ++ "," ++ toString cp.l1)
  let m := m.set_node cp.l2 (MNANodeInfo.new_voltage_with_name_and_scale
    ("v:C:" ++ toString cp.l0 ++ "," ++ toString cp.l1) (1 / cp.c))
  cp.update_dynamic m

/-! ### BJT (ℚ side)

The junction states `pnc`, `pne` are `JunctionPN` values over `f64`; the
stamp only reads their current `geq`/`ieq` scalars (via
`update_dynamic`), so the ℚ-side record carries those four scalars.
The transcendental junction model itself is embedded over `ℝ` below. -/

inductive TransistorType where
  | NPN
  | PNP
deriving DecidableEq

/-- Struct `BJTParameters`. -/
structure BJTParameters where
  bf : ℚ
  br : ℚ
  rb : ℚ
  re : ℚ
  rc : ℚ
  is_sat : ℚ
  n : ℚ
  transistor_type : TransistorType
deriving DecidableEq

/-- Forward alpha `af = bf / (1 + bf)`. -/
def BJTParameters.af (p : BJTParameters) : ℚ := p.bf / (1 + p.bf)

/-- Reverse alpha `ar = br / (1 + br)`. -/
def BJTParameters.ar (p : BJTParameters) : ℚ := p.br / (1 + p.br)

/-- Series resistance base-collector `rsbc = rb + rc`. -/
def BJTParameters.rsbc (p : BJTParameters) : ℚ := p.rb + p.rc

/-- Series resistance base-emitter `rsbe = rb + re`. -/
def BJTParameters.rsbe (p : BJTParameters) : ℚ := p.rb + p.re

/-- Rust `BJTParameters::default()` (approximates 2N3904). -/
def BJTParameters.default_params : BJTParameters :=
  { bf := 200, br := 20, rb := 5.8376, re := 2.65711, rc := 0.0001,
    is_sat := 6.734e-15, n := 1.24, transistor_type := TransistorType.NPN }

/-- The `geq` of a freshly built `JunctionPN::new(is, n)` (exact rational). -/
def junction_new_geq (is_sat n : ℚ) : ℚ := is_sat / (n * V_THERMAL) + G_MIN

/-- Struct `BJT`. The array fields `pin: [usize;3]` and `l: [usize;4]`
are flattened to named fields (`pin0..pin2`, `l0..l3`); the junction
records `pnc`, `pne` are represented by their `geq`/`ieq` scalars. -/
structure BJT where
  pin0 : ℕ
  pin1 : ℕ
  pin2 : ℕ
  l0 : ℕ
  l1 : ℕ
  l2 : ℕ
  l3 : ℕ
  dyn_pnc_ieq : ℕ
  dyn_pnc_geq : ℕ
  dyn_pne_ieq : ℕ
  dyn_pne_geq : ℕ
  pnc_geq : ℚ
  pnc_ieq : ℚ
  pne_geq : ℚ
  pne_ieq : ℚ
  params : BJTParameters
deriving DecidableEq

/-- Rust `BJT::new(m, b, c, e, params)`: build both junctions
(`pne` with `is/af`, `pnc` with `is/ar`), reserve four internal nets and
four dynamic slots.  A fresh junction has `ieq = 0` and the `geq` given
by `junction_new_geq`. -/
def BJT.new (m : MNASystem) (b c e : ℕ) (params : BJTParameters) : BJT × MNASystem :=
  let r0 := m.reserve
  let r1 := r0.2.reserve
  let r2 := r1.2.reserve
  let r3 := r2.2.reserve
  let d0 := r3.2.reserve_dynamic
  let d1 := d0.2.reserve_dynamic
  let d2 := d1.2.reserve_dynamic
  let d3 := d2.2.reserve_dynamic
  ({ pin0 := b, pin1 := c, pin2 := e,
     l0 := r0.1, l1 := r1.1, l2 := r2.1, l3 := r3.1,
     dyn_pnc_ieq := d0.1, dyn_pnc_geq := d1.1,
     dyn_pne_ieq := d2.1, dyn_pne_geq := d3.1,
     pnc_geq := junction_new_geq (params.is_sat / params.ar) params.n, pnc_ieq := 0,
     pne_geq := junction_new_geq (params.is_sat / params.af) params.n, pne_ieq := 0,
     params := params }, d3.2)

/-- Rust `BJT::update_dynamic`. -/
def BJT.update_dynamic (q : BJT) (m : MNASystem) : MNASystem :=
  let m := m.set_dynamic q.dyn_pnc_ieq q.pnc_ieq
  let m := m.set_dynamic q.dyn_pnc_geq q.pnc_geq
  let m := m.set_dynamic q.dyn_pne_ieq q.pne_ieq
  m.set_dynamic q.dyn_pne_geq q.pne_geq

/-- The part of `BJT::stamp` before the NPN/PNP branch. -/
def BJT.stamp_head (q : BJT) (m : MNASystem) : MNASystem :=
  let m := m.stamp_static (1 - q.params.ar) q.pin0 q.l2 "1-ar"
  let m := m.stamp_static (1 - q.params.af) q.pin0 q.l3 "1-ar"
  let m := m.stamp_static (-1) q.pin1 q.l2 "-1"
  let m := m.stamp_static (-1) q.pin2 q.l3 "-1"
  let m := m.stamp_static q.params.rsbc q.l2 q.l2 "rsbc"
  m.stamp_static q.params.rsbe q.l3 q.l3 "rsbe"

/-- The NPN/PNP branch of `BJT::stamp`: the current–junction coupling
cells, sign-flipped for PNP. -/
def BJT.stamp_coupling (q : BJT) (m : MNASystem) : MNASystem :=
  if q.params.transistor_type = TransistorType.PNP then
    let m := m.stamp_static (-1) q.l2 q.l0 "-1"
    let m := m.stamp_static 1 q.l0 q.l2 "+1"
    let m := m.stamp_static (-1) q.l3 q.l1 "-1"
    m.stamp_static 1 q.l1 q.l3 "+1"
  else
    let m := m.stamp_static 1 q.l2 q.l0 "+1"
    let m := m.stamp_static (-1) q.l0 q.l2 "-1"
    let m := m.stamp_static 1 q.l3 q.l1 "+1"
    m.stamp_static (-1) q.l1 q.l3 "-1"

/-- The part of `BJT::stamp` after the NPN/PNP branch. -/
def BJT.stamp_tail (q : BJT) (m : MNASystem) : MNASystem :=
  let pnp := q.params.transistor_type = TransistorType.PNP
  let pins := toString q.pin0 ++ "," ++ toString q.pin1 ++ "," ++ toString q.pin2
  let m := m.stamp_static (-1) q.l2 q.pin0 "-1"
  let m := m.stamp_static 1 q.l2 q.pin1 "+1"
  let m := m.stamp_static (-1) q.l3 q.pin0 "-1"
  let m := m.stamp_static 1 q.l3 q.pin2 "+1"
  let m := m.stamp_static q.params.ar q.pin2 q.l2 "+ar"
  let m := m.stamp_static q.params.af q.pin1 q.l3 "+af"
  let m := m.add_dynamic_a q.l0 q.l0 q.dyn_pnc_geq "gm:Qbc"
  let m := m.add_dynamic_b q.l0 q.dyn_pnc_ieq ("i0:Q:" ++ pins ++ ":cb")
  let m := m.add_dynamic_a q.l1 q.l1 q.dyn_pne_geq "gm:Qbe"
  let m := m.add_dynamic_b q.l1 q.dyn_pne_ieq ("i0:Q:" ++ pins ++ ":eb")
  let m := m.set_node q.l0 (MNANodeInfo.new_voltage_with_name
    ("v:Q:" ++ pins ++ ":" ++ (if pnp then "cb" else "bc")))
  let m := m.set_node q.l1 (MNANodeInfo.new_voltage_with_name
    ("v:Q:" ++ pins ++ ":" ++ (if pnp then "eb" else "be")))
  let m := m.set_node q.l2 (MNANodeInfo.new_current_with_scale
    ("i:Q:" ++ pins ++ ":bc") (1 - q.params.ar))
  let m := m.set_node q.l3 (MNANodeInfo.new_current_with_scale
    ("i:Q:" ++ pins ++ ":be") (1 - q.params.af))
  q.update_dynamic m

/-- Rust `BJT::stamp` (src/sim.rs lines 788–893), split as head, the
NPN/PNP-dependent coupling block, and tail. -/
def BJT.stamp (q : BJT) (m : MNASystem) : MNASystem :=
  q.stamp_tail (q.stamp_coupling (q.stamp_head m))

/-! ### PN junction (ℝ side, src/sim.rs lines 514–574)

The junction model uses `exp`/`ln`, so it is embedded over `ℝ`. -/

/-- Struct `JunctionPN`: variables `(geq, ieq, veq)` and cached
parameters `(is, nvt, rnvt, vcrit)`. -/
structure JunctionPN where
  geq : ℝ
  ieq : ℝ
  veq : ℝ
  is_sat : ℝ
  nvt : ℝ
  rnvt : ℝ
  vcrit : ℝ

/-- Rust `JunctionPN::new(is, n)`: initial state is linearized at `v = 0`. -/
noncomputable def JunctionPN.new (is_sat n : ℝ) : JunctionPN :=
  let nvt := n * (V_THERMAL : ℝ)
  { geq := is_sat / (n * (V_THERMAL : ℝ)) + (G_MIN : ℝ)
    ieq := 0
    veq := 0
    is_sat := is_sat
    nvt := nvt
    rnvt := 1 / nvt
    vcrit := nvt * Real.log (nvt / (is_sat * Real.sqrt 2)) }

/-- Rust `JunctionPN::linearize(v)`: first-order model of
`i = Is (exp(v/nVt) - 1) + Gmin v` at operating point `v`. -/
noncomputable def JunctionPN.linearize (s : JunctionPN) (v : ℝ) : JunctionPN :=
  let e := s.is_sat * Real.exp (v * s.rnvt)
  let i := e - s.is_sat + (G_MIN : ℝ) * v
  let g := e * s.rnvt + (G_MIN : ℝ)
  { s with geq := g, ieq := v * g - i, veq := v }

/-- Rust `JunctionPN::newton(v)`: return `(done, new state)`.  Mutation of
`self` is modelled by returning the updated record. -/
noncomputable def JunctionPN.newton (s : JunctionPN) (v : ℝ) : Bool × JunctionPN :=
  let dv := v - s.veq
  if |dv| < (V_TOLERANCE : ℝ) then
    (true, s)
  else
    let vv :=
      if v > s.vcrit then
        s.veq + s.nvt * Real.log (max s.is_sat (1 + dv * s.rnvt))
      else v
    (false, s.linearize vv)

/-! ### Unit formatter (src/sim.rs lines 244–263) -/

def UNIT_VALUE_OFFSET : ℤ := 4

def UNIT_VALUE_MAX : ℤ := 8

/-- The eight-element suffix table `UNIT_VALUE_SUFFIXES`. -/
def UNIT_VALUE_SUFFIXES : List String := ["p", "n", "u", "m", "", "k", "M", "G"]

/-- Rust float-to-int cast `x as i32`: truncation toward zero
(saturation at the `i32` bounds is not modelled). -/
noncomputable def rust_trunc (x : ℝ) : ℤ := if x < 0 then ⌈x⌉ else ⌊x⌋

/-- The clamped suffix index computed by `format_unit_value`:
`suff = 4 + (v.log10() as i32) / 3`, minus 1 when `v < 1`, then clamped
below at `0` and above at `UNIT_VALUE_MAX = 8`.  Rust `i32` division
truncates toward zero, hence `Int.tdiv`. -/
noncomputable def format_suffix_index (v : ℝ) : ℤ :=
  let s0 := UNIT_VALUE_OFFSET + Int.tdiv (rust_trunc (Real.logb 10 v)) 3
  let s1 := if v < 1 then s0 - 1 else s0
  let s2 := if s1 < 0 then 0 else s1
  if s2 > UNIT_VALUE_MAX then UNIT_VALUE_MAX else s2

/-- Rust `format_unit_value(v, unit)`.  The source renders
`format!("{:.}{}{}", vr, UNIT_VALUE_SUFFIXES[suff as usize], unit)`;
indexing the suffix table out of bounds panics in Rust and is modelled
as `none`.  The decimal rendering of `vr` is kept as the real number
itself, paired with the suffix-plus-unit string. -/
noncomputable def format_unit_value (v : ℝ) (unit : String) : Option (ℝ × String) :=
  let suff := format_suffix_index v
  match UNIT_VALUE_SUFFIXES.get? suff.toNat with
  | none => none
  | some sfx =>
    let vr := v / (10 : ℝ) ^ (3 * (suff - UNIT_VALUE_OFFSET))
    some (vr, sfx ++ unit)

/-! ### List lemmas -/

theorem nthD_set_self {α : Type} (xs : List α) (i : ℕ) (v d : α) (h : i < xs.length) :
    nthD (xs.set i v) i d = v := by
  induction xs generalizing i with
  | nil => simp at h
  | cons a t ih =>
    cases i with
    | zero => rfl
    | succ j => exact ih j (by simpa using h)

theorem nthD_set_ne {α : Type} (xs : List α) (i j : ℕ) (v d : α) (h : i ≠ j) :
    nthD (xs.set i v) j d = nthD xs j d := by
  induction xs generalizing i j with
  | nil => rfl
  | cons a t ih =>
    cases i with
    | zero =>
      cases j with
      | zero => exact absurd rfl h
      | succ k => rfl
    | succ i' =>
      cases j with
      | zero => rfl
      | succ k => exact ih i' k (fun hh => h (by rw [hh]))

theorem length_resizeD {α : Type} (xs : List α) (n : ℕ) (d : α) :
    (resizeD xs n d).length = n := by
  simp only [resizeD, List.length_append, List.length_take, List.length_replicate]
  omega

theorem resizeD_nil {α : Type} (n : ℕ) (d : α) :
    resizeD ([] : List α) n d = List.replicate n d := by
  simp [resizeD]

theorem resizeD_cons {α : Type} (a : α) (t : List α) (n : ℕ) (d : α) :
    resizeD (a :: t) (n + 1) d = a :: resizeD t n d := by
  simp [resizeD, List.take_succ_cons, Nat.succ_sub_succ]

theorem nthD_replicate {α : Type} (n i : ℕ) (a d : α) :
    nthD (List.replicate n a) i d = if i < n then a else d := by
  induction n generalizing i with
  | zero => cases i <;> simp [nthD]
  | succ k ih =>
    rw [List.replicate_succ]
    cases i with
    | zero => simp [nthD]
    | succ j =>
      show nthD (List.replicate k a) j d = _
      rw [ih]
      by_cases h : j < k
      · rw [if_pos h, if_pos (by omega)]
      · rw [if_neg h, if_neg (by omega)]

theorem nthD_resizeD_lt {α : Type} (xs : List α) (n i : ℕ) (d e : α)
    (h1 : i < n) (h2 : i < xs.length) :
    nthD (resizeD xs n d) i e = nthD xs i e := by
  induction xs generalizing n i with
  | nil => simp at h2
  | cons a t ih =>
    cases n with
    | zero => omega
    | succ k =>
      rw [resizeD_cons]
      cases i with
      | zero => rfl
      | succ j => exact ih k j (by omega) (by simpa using h2)

theorem nthD_resizeD_ge {α : Type} (xs : List α) (n i : ℕ) (d e : α)
    (h1 : i < n) (h2 : xs.length ≤ i) :
    nthD (resizeD xs n d) i e = d := by
  induction xs generalizing n i with
  | nil =>
    rw [resizeD_nil, nthD_replicate, if_pos h1]
  | cons a t ih =>
    cases n with
    | zero => omega
    | succ k =>
      rw [resizeD_cons]
      cases i with
      | zero => simp at h2
      | succ j => exact ih k j (by omega) (by simpa using h2)

theorem foldl_add_nthD (l : List ℕ) (vars : List ℚ) (a : ℚ) :
    l.foldl (fun acc i => acc + nthD vars i 0) a
      = a + (l.map (fun i => nthD vars i 0)).sum := by
  induction l generalizing a with
  | nil => simp
  | cons x t ih =>
    simp only [List.foldl_cons, List.map_cons, List.sum_cons, ih]
    ring

/-! ### System accessor lemmas -/

theorem modifyA_b (m : MNASystem) (r c : ℕ) (f : MNACell → MNACell) :
    (m.modifyA r c f).b = m.b := rfl

theorem modifyA_nodes (m : MNASystem) (r c : ℕ) (f : MNACell → MNACell) :
    (m.modifyA r c f).nodes = m.nodes := rfl

theorem modifyA_vars (m : MNASystem) (r c : ℕ) (f : MNACell → MNACell) :
    (m.modifyA r c f).vars = m.vars := rfl

theorem modifyA_net_size (m : MNASystem) (r c : ℕ) (f : MNACell → MNACell) :
    (m.modifyA r c f).net_size = m.net_size := rfl

theorem modifyA_time (m : MNASystem) (r c : ℕ) (f : MNACell → MNACell) :
    (m.modifyA r c f).time = m.time := rfl

theorem modifyA_a_length (m : MNASystem) (r c : ℕ) (f : MNACell → MNACell) :
    (m.modifyA r c f).a_matrix.length = m.a_matrix.length := by
  simp [MNASystem.modifyA]

theorem modifyA_row_length (m : MNASystem) (r c r' : ℕ) (f : MNACell → MNACell) :
    (nthD (m.modifyA r c f).a_matrix r' []).length
      = (nthD m.a_matrix r' []).length := by
  simp only [MNASystem.modifyA]
  by_cases hr : r = r'
  · subst hr
    by_cases h : r < m.a_matrix.length
    · rw [nthD_set_self _ _ _ _ h, List.length_set]
    · rw [List.set_eq_of_length_le (Nat.le_of_not_lt h)]
  · rw [nthD_set_ne _ _ _ _ _ hr]

theorem bCell_modifyA (m : MNASystem) (r c r' : ℕ) (f : MNACell → MNACell) :
    (m.modifyA r c f).bCell r' = m.bCell r' := rfl

theorem aCell_modifyA_self (m : MNASystem) (r c : ℕ) (f : MNACell → MNACell)
    (hr : r < m.a_matrix.length) (hc : c < (nthD m.a_matrix r []).length) :
    (m.modifyA r c f).aCell r c = f (m.aCell r c) := by
  simp only [MNASystem.modifyA, MNASystem.aCell]
  rw [nthD_set_self _ _ _ _ hr, nthD_set_self _ _ _ _ hc]

theorem aCell_modifyA_row_ne (m : MNASystem) (r c r' c' : ℕ) (f : MNACell → MNACell)
    (h : r ≠ r') :
    (m.modifyA r c f).aCell r' c' = m.aCell r' c' := by
  simp only [MNASystem.modifyA, MNASystem.aCell]
  rw [nthD_set_ne _ _ _ _ _ h]

theorem aCell_modifyA_col_ne (m : MNASystem) (r c r' c' : ℕ) (f : MNACell → MNACell)
    (h : c ≠ c') :
    (m.modifyA r c f).aCell r' c' = m.aCell r' c' := by
  simp only [MNASystem.modifyA, MNASystem.aCell]
  by_cases hr : r = r'
  · subst hr
    by_cases hl : r < m.a_matrix.length
    · rw [nthD_set_self _ _ _ _ hl, nthD_set_ne _ _ _ _ _ h]
    · rw [List.set_eq_of_length_le (Nat.le_of_not_lt hl)]
  · rw [nthD_set_ne _ _ _ _ _ hr]

theorem modifyB_a_matrix (m : MNASystem) (r : ℕ) (f : MNACell → MNACell) :
    (m.modifyB r f).a_matrix = m.a_matrix := rfl

theorem modifyB_nodes (m : MNASystem) (r : ℕ) (f : MNACell → MNACell) :
    (m.modifyB r f).nodes = m.nodes := rfl

theorem modifyB_vars (m : MNASystem) (r : ℕ) (f : MNACell → MNACell) :
    (m.modifyB r f).vars = m.vars := rfl

theorem modifyB_net_size (m : MNASystem) (r : ℕ) (f : MNACell → MNACell) :
    (m.modifyB r f).net_size = m.net_size := rfl

theorem modifyB_b_length (m : MNASystem) (r : ℕ) (f : MNACell → MNACell) :
    (m.modifyB r f).b.length = m.b.length := by
  simp [MNASystem.modifyB]

theorem aCell_modifyB (m : MNASystem) (r r' c' : ℕ) (f : MNACell → MNACell) :
    (m.modifyB r f).aCell r' c' = m.aCell r' c' := rfl

theorem bCell_modifyB_self (m : MNASystem) (r : ℕ) (f : MNACell → MNACell)
    (hr : r < m.b.length) :
    (m.modifyB r f).bCell r = f (m.bCell r) := by
  simp only [MNASystem.modifyB, MNASystem.bCell]
  rw [nthD_set_self _ _ _ _ hr]

theorem bCell_modifyB_ne (m : MNASystem) (r r' : ℕ) (f : MNACell → MNACell)
    (h : r ≠ r') :
    (m.modifyB r f).bCell r' = m.bCell r' := by
  simp only [MNASystem.modifyB, MNASystem.bCell]
  rw [nthD_set_ne _ _ _ _ _ h]

theorem set_node_aCell (m : MNASystem) (i : ℕ) (info : MNANodeInfo) (r c : ℕ) :
    (m.set_node i info).aCell r c = m.aCell r c := rfl

theorem set_node_bCell (m : MNASystem) (i : ℕ) (info : MNANodeInfo) (r : ℕ) :
    (m.set_node i info).bCell r = m.bCell r := rfl

theorem set_node_a_matrix (m : MNASystem) (i : ℕ) (info : MNANodeInfo) :
    (m.set_node i info).a_matrix = m.a_matrix := rfl

theorem set_node_b (m : MNASystem) (i : ℕ) (info : MNANodeInfo) :
    (m.set_node i info).b = m.b := rfl

theorem set_node_vars (m : MNASystem) (i : ℕ) (info : MNANodeInfo) :
    (m.set_node i info).vars = m.vars := rfl

theorem set_dynamic_aCell (m : MNASystem) (i : ℕ) (v : ℚ) (r c : ℕ) :
    (m.set_dynamic i v).aCell r c = m.aCell r c := rfl

theorem set_dynamic_bCell (m : MNASystem) (i : ℕ) (v : ℚ) (r : ℕ) :
    (m.set_dynamic i v).bCell r = m.bCell r := rfl

theorem set_dynamic_a_matrix (m : MNASystem) (i : ℕ) (v : ℚ) :
    (m.set_dynamic i v).a_matrix = m.a_matrix := rfl

theorem set_dynamic_b (m : MNASystem) (i : ℕ) (v : ℚ) :
    (m.set_dynamic i v).b = m.b := rfl

/-! ### Claim theorems: cell refresh and constants -/

/-- C5: for every cell, after `init_lu(step_scale)` followed by
`update_pre(pool)`: `pre_lu = g + g_timed * step_scale`, and
`lu = pre_lu + Σ pool[i]` summed over the indices in the cell's
`dyn_refs`, in order. -/
theorem cell_init_lu_update_pre (cell : MNACell) (step_scale : ℚ) (vars : List ℚ) :
    ((cell.init_lu step_scale).update_pre vars).pre_lu
        = cell.g + cell.g_timed * step_scale ∧
    ((cell.init_lu step_scale).update_pre vars).lu
        = ((cell.init_lu step_scale).update_pre vars).pre_lu
          + (cell.g_dyn.map (fun i => nthD vars i 0)).sum := by
  refine ⟨rfl, ?_⟩
  simp only [MNACell.update_pre, MNACell.init_lu, foldl_add_nthD]

/-- C8 counterexample: the claimed constant table is false — the core
defines `V_THERMAL = 0.026` V, not `0.0258` V. -/
theorem constants_claim_counterexample :
    ¬ (G_MIN = 1e-12 ∧ V_TOLERANCE = 5e-5 ∧ V_THERMAL = 0.0258 ∧ MAX_ITER = 200) := by
  intro h
  have h3 := h.2.2.1
  norm_num [V_THERMAL] at h3

/-- C8 (amended): the default constants of the core are
`G_MIN = 1e-12`, `V_TOLERANCE = 5e-5`, `V_THERMAL = 0.026` V and
`MAX_ITER = 200`. -/
theorem constants_default_values :
    G_MIN = 1e-12 ∧ V_TOLERANCE = 5e-5 ∧ V_THERMAL = 0.026 ∧ MAX_ITER = 200 :=
  ⟨rfl, rfl, rfl, rfl⟩

/-! ### Claim theorems: PN junction -/

/-- C10: when `|v - veq| < V_TOLERANCE`, `newton(v)` returns `true` and
leaves the entire junction state — `geq`, `ieq`, `veq` and the cached
parameters — unchanged. -/
theorem junction_newton_within_tolerance (s : JunctionPN) (v : ℝ)
    (h : |v - s.veq| < (V_TOLERANCE : ℝ)) :
    s.newton v = (true, s) := by
  simp only [JunctionPN.newton]
  rw [if_pos h]

/-- C10 witness at a fresh junction and `v = 0`. -/
theorem junction_newton_within_tolerance_witness :
    |0 - (JunctionPN.new 1 1).veq| < (V_TOLERANCE : ℝ) ∧
    (JunctionPN.new 1 1).newton 0 = (true, JunctionPN.new 1 1) := by
  have h : |(0:ℝ) - (JunctionPN.new 1 1).veq| < (V_TOLERANCE : ℝ) := by
    show |(0:ℝ) - 0| < (V_TOLERANCE : ℝ)
    norm_num [V_TOLERANCE]
  exact ⟨h, junction_newton_within_tolerance _ _ h⟩

/-- C1: `newton(v)` returns `true` exactly when `|v - veq| <
V_TOLERANCE`; otherwise it damps the step — replacing `v` by
`veq + nVt * ln(max(Is, 1 + (v - veq)/nVt))` when `v > vcrit` and using
`v` unchanged otherwise — re-linearizes at that voltage and returns
`false`.  The cached field `rnvt` holds `1/nvt` for every junction the
program builds. -/
theorem junction_newton_spec (s : JunctionPN) (v : ℝ) (h : s.rnvt = 1 / s.nvt) :
    s.newton v =
      if |v - s.veq| < (V_TOLERANCE : ℝ) then (true, s)
      else (false, s.linearize (if v > s.vcrit
          then s.veq + s.nvt * Real.log (max s.is_sat (1 + (v - s.veq) / s.nvt))
          else v)) := by
  simp only [JunctionPN.newton]
  by_cases h1 : |v - s.veq| < (V_TOLERANCE : ℝ)
  · rw [if_pos h1, if_pos h1]
  · rw [if_neg h1, if_neg h1, h, mul_one_div]

/-- C1 witness at a fresh junction and `v = 1`. -/
theorem junction_newton_spec_witness :
    (JunctionPN.new 1 1).rnvt = 1 / (JunctionPN.new 1 1).nvt ∧
    (JunctionPN.new 1 1).newton 1 =
      (if |1 - (JunctionPN.new 1 1).veq| < (V_TOLERANCE : ℝ)
       then (true, JunctionPN.new 1 1)
       else (false, (JunctionPN.new 1 1).linearize
         (if 1 > (JunctionPN.new 1 1).vcrit
          then (JunctionPN.new 1 1).veq + (JunctionPN.new 1 1).nvt *
            Real.log (max (JunctionPN.new 1 1).is_sat
              (1 + (1 - (JunctionPN.new 1 1).veq) / (JunctionPN.new 1 1).nvt))
          else 1))) :=
  ⟨rfl, junction_newton_spec (JunctionPN.new 1 1) 1 rfl⟩

/-- C9: for `Is > 0`, `n > 0`, a freshly constructed junction is exactly
the fresh junction linearized at `0.0`, and its state is
`geq = Is/(n·V_THERMAL) + G_MIN`, `ieq = 0`, `veq = 0`. -/
theorem junction_new_eq_linearize_zero (is_sat n : ℝ) (_h1 : 0 < is_sat) (_h2 : 0 < n) :
    (JunctionPN.new is_sat n).linearize 0 = JunctionPN.new is_sat n ∧
    (JunctionPN.new is_sat n).geq = is_sat / (n * (V_THERMAL : ℝ)) + (G_MIN : ℝ) ∧
    (JunctionPN.new is_sat n).ieq = 0 ∧
    (JunctionPN.new is_sat n).veq = 0 := by
  refine ⟨?_, rfl, rfl, rfl⟩
  simp only [JunctionPN.linearize, JunctionPN.new, zero_mul, Real.exp_zero,
    mul_one, mul_zero, sub_zero]
  congr 1
  · rw [mul_one_div]
  · ring

/-- C9 witness at `Is = 1`, `n = 1`. -/
theorem junction_new_eq_linearize_zero_witness :
    (0:ℝ) < 1 ∧
    ((JunctionPN.new 1 1).linearize 0 = JunctionPN.new 1 1 ∧
     (JunctionPN.new 1 1).geq = 1 / (1 * (V_THERMAL : ℝ)) + (G_MIN : ℝ) ∧
     (JunctionPN.new 1 1).ieq = 0 ∧
     (JunctionPN.new 1 1).veq = 0) :=
  ⟨one_pos, junction_new_eq_linearize_zero 1 1 one_pos one_pos⟩

/-! ### Claim theorems: capacitor stamp -/

/-- The cell contributions C2 ascribes to `Capacitor::stamp` with
`g = 2C`: the six time-scaled entries, the three static entries, and the
dynamic reference on `b[s]`; each paired with the fact that the other
(static/time-scaled) component of the same cell is untouched. -/
def CapacitorStampContributions (cp : Capacitor) (m : MNASystem) : Prop :=
  let m' := cp.stamp m
  let g := 2 * cp.c
  ((m'.aCell cp.l0 cp.l0).g_timed = (m.aCell cp.l0 cp.l0).g_timed - g ∧
    (m'.aCell cp.l0 cp.l0).g = (m.aCell cp.l0 cp.l0).g) ∧
  ((m'.aCell cp.l0 cp.l1).g_timed = (m.aCell cp.l0 cp.l1).g_timed + g ∧
    (m'.aCell cp.l0 cp.l1).g = (m.aCell cp.l0 cp.l1).g) ∧
  ((m'.aCell cp.l1 cp.l0).g_timed = (m.aCell cp.l1 cp.l0).g_timed + g ∧
    (m'.aCell cp.l1 cp.l0).g = (m.aCell cp.l1 cp.l0).g) ∧
  ((m'.aCell cp.l1 cp.l1).g_timed = (m.aCell cp.l1 cp.l1).g_timed - g ∧
    (m'.aCell cp.l1 cp.l1).g = (m.aCell cp.l1 cp.l1).g) ∧
  ((m'.aCell cp.l0 cp.l2).g_timed = (m.aCell cp.l0 cp.l2).g_timed + 1 ∧
    (m'.aCell cp.l0 cp.l2).g = (m.aCell cp.l0 cp.l2).g) ∧
  ((m'.aCell cp.l1 cp.l2).g_timed = (m.aCell cp.l1 cp.l2).g_timed - 1 ∧
    (m'.aCell cp.l1 cp.l2).g = (m.aCell cp.l1 cp.l2).g) ∧
  ((m'.aCell cp.l2 cp.l0).g = (m.aCell cp.l2 cp.l0).g + 2 * g ∧
    (m'.aCell cp.l2 cp.l0).g_timed = (m.aCell cp.l2 cp.l0).g_timed) ∧
  ((m'.aCell cp.l2 cp.l1).g = (m.aCell cp.l2 cp.l1).g - 2 * g ∧
    (m'.aCell cp.l2 cp.l1).g_timed = (m.aCell cp.l2 cp.l1).g_timed) ∧
  ((m'.aCell cp.l2 cp.l2).g = (m.aCell cp.l2 cp.l2).g - 1 ∧
    (m'.aCell cp.l2 cp.l2).g_timed = (m.aCell cp.l2 cp.l2).g_timed) ∧
  (m'.bCell cp.l2).g_dyn = (m.bCell cp.l2).g_dyn ++ [cp.dyn_index]

/-- C2: `Capacitor::stamp` contributes, with `g = 2C`, the time-scaled
entries `-g, +g, +g, -g` on the pin block and `+1, -1` on the `(pin, s)`
column, the static entries `+2g, -2g, -1` on the `s` row, and registers
the capacitor's dynamic pool slot on `b[s]`. -/
theorem capacitor_stamp_spec (cp : Capacitor) (m : MNASystem)
    (hA : m.a_matrix.length = m.net_size)
    (hrow : ∀ r, r < m.net_size → (nthD m.a_matrix r []).length = m.net_size)
    (hb : m.b.length = m.net_size)
    (h0 : cp.l0 < m.net_size) (h1 : cp.l1 < m.net_size) (h2 : cp.l2 < m.net_size)
    (h01 : cp.l0 ≠ cp.l1) (h02 : cp.l0 ≠ cp.l2) (h12 : cp.l1 ≠ cp.l2) :
    CapacitorStampContributions cp m := by
  have h10 := h01.symm
  have h20 := h02.symm
  have h21 := h12.symm
  simp only [CapacitorStampContributions]
  simp [Capacitor.stamp, Capacitor.update_dynamic, MNASystem.stamp_timed,
    MNASystem.stamp_static, MNASystem.add_dynamic_b,
    aCell_modifyA_self, aCell_modifyA_row_ne, aCell_modifyA_col_ne,
    bCell_modifyB_self, bCell_modifyB_ne, aCell_modifyB, bCell_modifyA,
    set_node_aCell, set_node_bCell, set_dynamic_aCell, set_dynamic_bCell,
    modifyA_a_length, modifyA_row_length, modifyA_net_size, modifyA_b,
    modifyB_a_matrix, modifyB_b_length, modifyB_net_size, set_node_b,
    set_node_a_matrix,
    hA, hrow, hb, h0, h1, h2, h01, h02, h12, h10, h20, h21]
  repeat' apply And.intro
  all_goals ring

/-- Concrete system and capacitor for the C2 witness: a two-node system
with a 1 F capacitor across nodes 0 and 1 (reserving net 2, slot 0). -/
def c2_pair : Capacitor × MNASystem := Capacitor.new (MNASystem.empty.set_size 2) 1 0 1

/-- C2 witness at the concrete capacitor and system of `c2_pair`. -/
theorem capacitor_stamp_spec_witness :
    (c2_pair.2.a_matrix.length = c2_pair.2.net_size ∧
     (∀ r, r < c2_pair.2.net_size →
        (nthD c2_pair.2.a_matrix r []).length = c2_pair.2.net_size) ∧
     c2_pair.2.b.length = c2_pair.2.net_size ∧
     c2_pair.1.l0 < c2_pair.2.net_size ∧
     c2_pair.1.l1 < c2_pair.2.net_size ∧
     c2_pair.1.l2 < c2_pair.2.net_size ∧
     c2_pair.1.l0 ≠ c2_pair.1.l1 ∧
     c2_pair.1.l0 ≠ c2_pair.1.l2 ∧
     c2_pair.1.l1 ≠ c2_pair.1.l2) ∧
    CapacitorStampContributions c2_pair.1 c2_pair.2 :=
  ⟨⟨by decide, by decide, by decide, by decide, by decide, by decide,
    by decide, by decide, by decide⟩,
   capacitor_stamp_spec c2_pair.1 c2_pair.2 (by decide) (by decide) (by decide)
     (by decide) (by decide) (by decide) (by decide) (by decide) (by decide)⟩

/-! ### Claim theorems: set_size / reserve -/

theorem nthD_map {α β : Type} (f : α → β) (l : List α) (i : ℕ) (d : β) (e : α)
    (h : i < l.length) :
    nthD (l.map f) i d = f (nthD l i e) := by
  induction l generalizing i with
  | nil => simp at h
  | cons a t ih =>
    cases i with
    | zero => rfl
    | succ j => exact ih j (by simpa using h)

/-- What C3 (as amended) states about `set_size(n)` for a growing
resize: `A` becomes `n × n` and `b` and `nodes` length `n`; previously
existing cells of `A` and `b` are preserved bit-identical; new cells are
default-initialized; the node-info vector is rebuilt from scratch as
default Voltage infos for all rows (not only the new ones); `time` and
the pool are untouched; and `reserve()` is `set_size(net_size + 1)`
returning the old size. -/
def SetSizeGrowSpec (m : MNASystem) (n : ℕ) : Prop :=
  let m' := m.set_size n
  (m'.a_matrix.length = n ∧
   (∀ r, r < n → (nthD m'.a_matrix r []).length = n) ∧
   m'.b.length = n ∧
   m'.nodes.length = n ∧
   m'.net_size = n ∧
   m'.time = m.time ∧
   m'.vars = m.vars) ∧
  (∀ r c, r < m.net_size → c < m.net_size → m'.aCell r c = m.aCell r c) ∧
  (∀ r, r < m.net_size → m'.bCell r = m.bCell r) ∧
  (∀ r c, r < n → c < n → (m.net_size ≤ r ∨ m.net_size ≤ c) →
    m'.aCell r c = default) ∧
  (∀ r, m.net_size ≤ r → r < n → m'.bCell r = default) ∧
  m'.nodes = (List.range n).map MNANodeInfo.new_voltage ∧
  m.reserve = (m.net_size, m.set_size (m.net_size + 1))

/-- C3 (amended): for a well-formed system and `n` above the current
size, `set_size(n)` grows `A` and `b` preserving every existing cell and
zero-filling the new ones, but rebuilds **all** `NodeInfo` entries as
defaults — pre-existing node metadata is not preserved. -/
theorem set_size_grow_spec (m : MNASystem) (n : ℕ)
    (hA : m.a_matrix.length = m.net_size)
    (hrow : ∀ r, r < m.net_size → (nthD m.a_matrix r []).length = m.net_size)
    (hb : m.b.length = m.net_size)
    (hn : m.net_size < n) :
    SetSizeGrowSpec m n := by
  refine ⟨⟨?_, ?_, ?_, ?_, rfl, rfl, rfl⟩, ?_, ?_, ?_, ?_, rfl, rfl⟩
  · simp [MNASystem.set_size, length_resizeD]
  · intro r hr
    show (nthD ((resizeD m.a_matrix n []).map (fun row => resizeD row n default)) r []).length = n
    rw [nthD_map _ _ _ _ [] (by rw [length_resizeD]; exact hr), length_resizeD]
  · simp [MNASystem.set_size, length_resizeD]
  · simp [MNASystem.set_size]
  · intro r c hr hc
    have h1 : r < n := by omega
    have h2 : r < m.a_matrix.length := by omega
    have h3 : c < (nthD m.a_matrix r []).length := by rw [hrow r hr]; exact hc
    show nthD (nthD ((resizeD m.a_matrix n []).map
      (fun row => resizeD row n default)) r []) c default = m.aCell r c
    rw [nthD_map _ _ _ _ [] (by rw [length_resizeD]; exact h1)]
    rw [nthD_resizeD_lt m.a_matrix n r [] [] h1 h2]
    rw [nthD_resizeD_lt (nthD m.a_matrix r []) n c default default (by omega) h3]
    rfl
  · intro r hr
    have h1 : r < n := by omega
    have h2 : r < m.b.length := by omega
    show nthD (resizeD m.b n default) r default = m.bCell r
    rw [nthD_resizeD_lt m.b n r default default h1 h2]
    rfl
  · intro r c hr hc hor
    show nthD (nthD ((resizeD m.a_matrix n []).map
      (fun row => resizeD row n default)) r []) c default = default
    rw [nthD_map _ _ _ _ [] (by rw [length_resizeD]; exact hr)]
    by_cases hr2 : r < m.net_size
    · have hc2 : m.net_size ≤ c := by omega
      have h2 : r < m.a_matrix.length := by omega
      have h3 : (nthD m.a_matrix r []).length ≤ c := by rw [hrow r hr2]; exact hc2
      rw [nthD_resizeD_lt m.a_matrix n r [] [] hr h2]
      rw [nthD_resizeD_ge (nthD m.a_matrix r []) n c default default hc h3]
    · have h2 : m.a_matrix.length ≤ r := by omega
      rw [nthD_resizeD_ge m.a_matrix n r [] [] hr h2]
      rw [resizeD_nil, nthD_replicate, if_pos hc]
  · intro r hr2 hr
    have h2 : m.b.length ≤ r := by omega
    show nthD (resizeD m.b n default) r default = default
    rw [nthD_resizeD_ge m.b n r default default hr h2]

/-- Concrete system for C3: one row whose node info has been set to a
Current info (as a voltage-source stamp would do). -/
def c3_m0 : MNASystem :=
  { nodes := [MNANodeInfo.new_current "i:V(5:0,1)"],
    a_matrix := [[default]], b := [default], time := 0, net_size := 1, vars := [] }

/-- C3 counterexample: growing `set_size` does **not** preserve existing
`NodeInfo` entries — the Current info at row 0 is replaced by a default
Voltage info. -/
theorem set_size_counterexample :
    nthD ((c3_m0.set_size 2).nodes) 0 (MNANodeInfo.new_voltage 0)
      ≠ nthD c3_m0.nodes 0 (MNANodeInfo.new_voltage 0) := by
  decide

/-- C3 witness: the amended statement applies to `c3_m0` grown to 3. -/
theorem set_size_grow_spec_witness :
    (c3_m0.a_matrix.length = c3_m0.net_size ∧
     (∀ r, r < c3_m0.net_size → (nthD c3_m0.a_matrix r []).length = c3_m0.net_size) ∧
     c3_m0.b.length = c3_m0.net_size ∧
     c3_m0.net_size < 3) ∧
    SetSizeGrowSpec c3_m0 3 :=
  ⟨⟨by decide, by decide, by decide, by decide⟩,
   set_size_grow_spec c3_m0 3 (by decide) (by decide) (by decide) (by decide)⟩

/-! ### Claim theorems: BJT coupling cells -/

/-- Full characterization of a `modifyA` read-back: the written cell
changes (when in range), all others are untouched. -/
theorem aCell_modifyA_cases (m : MNASystem) (r c r' c' : ℕ) (f : MNACell → MNACell) :
    (m.modifyA r c f).aCell r' c' =
      if r = r' ∧ c = c' ∧ r < m.a_matrix.length ∧ c < (nthD m.a_matrix r []).length
      then f (m.aCell r c) else m.aCell r' c' := by
  by_cases h1 : r = r'
  · by_cases h2 : c = c'
    · subst h1; subst h2
      by_cases h3 : r < m.a_matrix.length
      · by_cases h4 : c < (nthD m.a_matrix r []).length
        · rw [if_pos ⟨rfl, rfl, h3, h4⟩, aCell_modifyA_self m r c f h3 h4]
        · rw [if_neg (by tauto)]
          show nthD (nthD (m.a_matrix.set r _) r []) c default = _
          rw [nthD_set_self _ _ _ _ h3,
            List.set_eq_of_length_le (Nat.le_of_not_lt h4)]
          rfl
      · rw [if_neg (by tauto)]
        show nthD (nthD (m.a_matrix.set r _) r []) c default = _
        rw [List.set_eq_of_length_le (Nat.le_of_not_lt h3)]
        rfl
    · rw [if_neg (by tauto), aCell_modifyA_col_ne m r c r' c' f h2]
  · rw [if_neg (by tauto), aCell_modifyA_row_ne m r c r' c' f h1]

/-- Two systems that differ at most on the matrix cells listed in `S`
(and on node metadata, which carries no matrix content). -/
def AgreeExceptA (S : List (ℕ × ℕ)) (m₁ m₂ : MNASystem) : Prop :=
  m₁.a_matrix.length = m₂.a_matrix.length ∧
  (∀ r, (nthD m₁.a_matrix r []).length = (nthD m₂.a_matrix r []).length) ∧
  m₁.b = m₂.b ∧
  m₁.vars = m₂.vars ∧
  ∀ r c, (r, c) ∉ S → m₁.aCell r c = m₂.aCell r c

theorem agreeExceptA_refl (S : List (ℕ × ℕ)) (m : MNASystem) : AgreeExceptA S m m :=
  ⟨rfl, fun _ => rfl, rfl, rfl, fun _ _ _ => rfl⟩

theorem AgreeExceptA.congr_modifyA {S : List (ℕ × ℕ)} {m₁ m₂ : MNASystem}
    (h : AgreeExceptA S m₁ m₂) (r c : ℕ) (f : MNACell → MNACell) :
    AgreeExceptA S (m₁.modifyA r c f) (m₂.modifyA r c f) := by
  obtain ⟨hlen, hrow, hbb, hv, hcells⟩ := h
  refine ⟨by rw [modifyA_a_length, modifyA_a_length, hlen],
    fun r' => by rw [modifyA_row_length, modifyA_row_length]; exact hrow r',
    by rw [modifyA_b, modifyA_b]; exact hbb,
    by rw [modifyA_vars, modifyA_vars]; exact hv, ?_⟩
  intro r' c' hmem
  rw [aCell_modifyA_cases, aCell_modifyA_cases]
  by_cases hcond : r = r' ∧ c = c' ∧ r < m₁.a_matrix.length ∧
      c < (nthD m₁.a_matrix r []).length
  · obtain ⟨e1, e2, e3, e4⟩ := hcond
    rw [if_pos ⟨e1, e2, e3, e4⟩, if_pos ⟨e1, e2, by rw [← hlen]; exact e3,
      by rw [← hrow r]; exact e4⟩]
    have : (r, c) ∉ S := by rw [e1, e2]; exact hmem
    rw [hcells r c this]
  · rw [if_neg hcond, if_neg (by
      intro ⟨e1, e2, e3, e4⟩
      exact hcond ⟨e1, e2, by rw [hlen]; exact e3, by rw [hrow r]; exact e4⟩)]
    exact hcells r' c' hmem

theorem AgreeExceptA.modifyA_left {S : List (ℕ × ℕ)} {m₁ m₂ : MNASystem}
    (h : AgreeExceptA S m₁ m₂) (r c : ℕ) (hin : (r, c) ∈ S) (f : MNACell → MNACell) :
    AgreeExceptA S (m₁.modifyA r c f) m₂ := by
  obtain ⟨hlen, hrow, hbb, hv, hcells⟩ := h
  refine ⟨by rw [modifyA_a_length, hlen],
    fun r' => by rw [modifyA_row_length]; exact hrow r',
    by rw [modifyA_b]; exact hbb,
    by rw [modifyA_vars]; exact hv, ?_⟩
  intro r' c' hmem
  rw [aCell_modifyA_cases, if_neg (by
    intro ⟨e1, e2, _, _⟩
    rw [← e1, ← e2] at hmem
    exact hmem hin)]
  exact hcells r' c' hmem

theorem AgreeExceptA.modifyA_right {S : List (ℕ × ℕ)} {m₁ m₂ : MNASystem}
    (h : AgreeExceptA S m₁ m₂) (r c : ℕ) (hin : (r, c) ∈ S) (f : MNACell → MNACell) :
    AgreeExceptA S m₁ (m₂.modifyA r c f) := by
  obtain ⟨hlen, hrow, hbb, hv, hcells⟩ := h
  refine ⟨by rw [modifyA_a_length, hlen],
    fun r' => by rw [modifyA_row_length]; exact hrow r',
    by rw [modifyA_b]; exact hbb,
    by rw [modifyA_vars]; exact hv, ?_⟩
  intro r' c' hmem
  rw [aCell_modifyA_cases, if_neg (by
    intro ⟨e1, e2, _, _⟩
    rw [← e1, ← e2] at hmem
    exact hmem hin)]
  exact hcells r' c' hmem

theorem AgreeExceptA.congr_modifyB {S : List (ℕ × ℕ)} {m₁ m₂ : MNASystem}
    (h : AgreeExceptA S m₁ m₂) (r : ℕ) (f : MNACell → MNACell) :
    AgreeExceptA S (m₁.modifyB r f) (m₂.modifyB r f) := by
  obtain ⟨hlen, hrow, hbb, hv, hcells⟩ := h
  exact ⟨hlen, hrow, by simp only [MNASystem.modifyB]; rw [hbb], hv, hcells⟩

theorem AgreeExceptA.congr_set_node {S : List (ℕ × ℕ)} {m₁ m₂ : MNASystem}
    (h : AgreeExceptA S m₁ m₂) (i j : ℕ) (inf₁ inf₂ : MNANodeInfo) :
    AgreeExceptA S (m₁.set_node i inf₁) (m₂.set_node j inf₂) := h

theorem AgreeExceptA.congr_set_dynamic {S : List (ℕ × ℕ)} {m₁ m₂ : MNASystem}
    (h : AgreeExceptA S m₁ m₂) (i : ℕ) (v : ℚ) :
    AgreeExceptA S (m₁.set_dynamic i v) (m₂.set_dynamic i v) := by
  obtain ⟨hlen, hrow, hbb, hv, hcells⟩ := h
  exact ⟨hlen, hrow, hbb, by simp only [MNASystem.set_dynamic]; rw [hv], hcells⟩

/-- The given BJT with its transistor type replaced. -/
def bjtWith (q : BJT) (tt : TransistorType) : BJT :=
  { q with params := { q.params with transistor_type := tt } }

/-- The values C4 (as amended) ascribes to the four current/junction
coupling cells after `BJT::stamp`: with `s = -1` for PNP and `s = +1`
for NPN, the cells `(i_bc, v_bc)` and `(i_be, v_be)` receive `+s` while
`(v_bc, i_bc)` and `(v_be, i_be)` receive `-s`.  (Here `v_bc = l0`,
`v_be = l1`, `i_bc = l2`, `i_be = l3`.) -/
def BJTCouplingContributions (q : BJT) (m : MNASystem) : Prop :=
  let m' := q.stamp m
  let s : ℚ := if q.params.transistor_type = TransistorType.PNP then -1 else 1
  (m'.aCell q.l2 q.l0).g = (m.aCell q.l2 q.l0).g + s ∧
  (m'.aCell q.l0 q.l2).g = (m.aCell q.l0 q.l2).g - s ∧
  (m'.aCell q.l3 q.l1).g = (m.aCell q.l3 q.l1).g + s ∧
  (m'.aCell q.l1 q.l3).g = (m.aCell q.l1 q.l3).g - s

/-- C4 (amended): the four coupling cells receive `+s` at
`(i_bc, v_bc)`, `(i_be, v_be)` and `-s` at `(v_bc, i_bc)`, `(v_be, i_be)`
with `s = +1` for NPN and `s = -1` for PNP; and the four coupling cells
are the only matrix entries whose value depends on the NPN/PNP type (the
stamps outside them, the right-hand side and the pool are identical for
both types). -/
theorem bjt_stamp_coupling_spec (q : BJT) (m : MNASystem)
    (hA : m.a_matrix.length = m.net_size)
    (hrow : ∀ r, r < m.net_size → (nthD m.a_matrix r []).length = m.net_size)
    (hl0 : q.l0 < m.net_size) (hl1 : q.l1 < m.net_size)
    (hl2 : q.l2 < m.net_size) (hl3 : q.l3 < m.net_size)
    (hp00 : q.pin0 ≠ q.l0) (hp01 : q.pin0 ≠ q.l1) (hp02 : q.pin0 ≠ q.l2)
    (hp03 : q.pin0 ≠ q.l3)
    (hp10 : q.pin1 ≠ q.l0) (hp11 : q.pin1 ≠ q.l1) (hp12 : q.pin1 ≠ q.l2)
    (hp13 : q.pin1 ≠ q.l3)
    (hp20 : q.pin2 ≠ q.l0) (hp21 : q.pin2 ≠ q.l1) (hp22 : q.pin2 ≠ q.l2)
    (hp23 : q.pin2 ≠ q.l3)
    (hl01 : q.l0 ≠ q.l1) (hl02 : q.l0 ≠ q.l2) (hl03 : q.l0 ≠ q.l3)
    (hl12 : q.l1 ≠ q.l2) (hl13 : q.l1 ≠ q.l3) (hl23 : q.l2 ≠ q.l3) :
    BJTCouplingContributions q m ∧
    AgreeExceptA [(q.l2, q.l0), (q.l0, q.l2), (q.l3, q.l1), (q.l1, q.l3)]
      ((bjtWith q TransistorType.NPN).stamp m)
      ((bjtWith q TransistorType.PNP).stamp m) := by
  have hl10 := hl01.symm
  have hl20 := hl02.symm
  have hl30 := hl03.symm
  have hl21 := hl12.symm
  have hl31 := hl13.symm
  have hl32 := hl23.symm
  constructor
  · by_cases hty : q.params.transistor_type = TransistorType.PNP <;>
    · simp only [BJTCouplingContributions]
      simp [BJT.stamp, BJT.stamp_head, BJT.stamp_coupling, BJT.stamp_tail,
        BJT.update_dynamic, hty,
        MNASystem.stamp_static, MNASystem.add_dynamic_a, MNASystem.add_dynamic_b,
        aCell_modifyA_self, aCell_modifyA_row_ne, aCell_modifyA_col_ne,
        aCell_modifyB, set_node_aCell, set_dynamic_aCell,
        modifyA_a_length, modifyA_row_length, modifyA_net_size, modifyA_b,
        modifyB_a_matrix, modifyB_net_size,
        hA, hrow, hl0, hl1, hl2, hl3,
        hp00, hp01, hp02, hp03, hp10, hp11, hp12, hp13,
        hp20, hp21, hp22, hp23,
        hl01, hl02, hl03, hl12, hl13, hl23,
        hl10, hl20, hl30, hl21, hl31, hl32]
      repeat' apply And.intro
      all_goals ring
  · apply AgreeExceptA.congr_set_dynamic
    apply AgreeExceptA.congr_set_dynamic
    apply AgreeExceptA.congr_set_dynamic
    apply AgreeExceptA.congr_set_dynamic
    apply AgreeExceptA.congr_set_node
    apply AgreeExceptA.congr_set_node
    apply AgreeExceptA.congr_set_node
    apply AgreeExceptA.congr_set_node
    apply AgreeExceptA.congr_modifyB
    apply AgreeExceptA.congr_modifyA
    apply AgreeExceptA.congr_modifyB
    apply AgreeExceptA.congr_modifyA
    apply AgreeExceptA.congr_modifyA
    apply AgreeExceptA.congr_modifyA
    apply AgreeExceptA.congr_modifyA
    apply AgreeExceptA.congr_modifyA
    apply AgreeExceptA.congr_modifyA
    apply AgreeExceptA.congr_modifyA
    simp only [BJT.stamp_coupling, bjtWith, reduceIte]
    rw [if_neg (fun hcon => TransistorType.noConfusion hcon)]
    apply AgreeExceptA.modifyA_right
    apply AgreeExceptA.modifyA_left
    apply AgreeExceptA.modifyA_right
    apply AgreeExceptA.modifyA_left
    apply AgreeExceptA.modifyA_right
    apply AgreeExceptA.modifyA_left
    apply AgreeExceptA.modifyA_right
    apply AgreeExceptA.modifyA_left
    exact agreeExceptA_refl _ _
    all_goals simp

/-- Concrete BJT for C4: default 2N3904-like NPN parameters on a
three-node system, pins (B,C,E) = (0,1,2), internal nets 3–6. -/
def c4_pair : BJT × MNASystem :=
  BJT.new (MNASystem.empty.set_size 3) 0 1 2 BJTParameters.default_params

/-- Integer-valued NPN parameters for the C4 counterexample (kept
integral so concrete evaluation stays in reduced rationals). -/
def c4_params : BJTParameters :=
  { bf := 200, br := 20, rb := 5, re := 2, rc := 1, is_sat := 1, n := 1,
    transistor_type := TransistorType.NPN }

/-- Concrete NPN transistor wired to pins 0,1,2 with internal nets 3–6
on a seven-net system. -/
def c4_bjt : BJT :=
  { pin0 := 0, pin1 := 1, pin2 := 2, l0 := 3, l1 := 4, l2 := 5, l3 := 6,
    dyn_pnc_ieq := 0, dyn_pnc_geq := 1, dyn_pne_ieq := 2, dyn_pne_geq := 3,
    pnc_geq := 0, pnc_ieq := 0, pne_geq := 0, pne_ieq := 0, params := c4_params }

def c4_sys : MNASystem := MNASystem.empty.set_size 7

/-- C4 counterexample: for this NPN transistor the coupling cell
`(v_bc, i_bc) = (l0, l2)` receives `-1`, not the `+1` the claim states
for all four coupling cells. -/
theorem bjt_coupling_claim_counterexample :
    c4_bjt.params.transistor_type = TransistorType.NPN ∧
    ((c4_bjt.stamp c4_sys).aCell c4_bjt.l0 c4_bjt.l2).g = -1 ∧
    (-1 : ℚ) ≠ 1 := by
  have hA : c4_sys.a_matrix.length = c4_sys.net_size := by decide
  have hrow : ∀ r, r < c4_sys.net_size →
      (nthD c4_sys.a_matrix r []).length = c4_sys.net_size := by decide
  have hg : (c4_sys.aCell 3 5).g = 0 := by decide
  have h3 : (3 : ℕ) < c4_sys.net_size := by decide
  have h5 : (5 : ℕ) < c4_sys.net_size := by decide
  refine ⟨rfl, ?_, by norm_num⟩
  simp [c4_bjt, c4_params, BJT.stamp, BJT.stamp_head, BJT.stamp_coupling,
    BJT.stamp_tail, BJT.update_dynamic,
    MNASystem.stamp_static, MNASystem.add_dynamic_a, MNASystem.add_dynamic_b,
    aCell_modifyA_self, aCell_modifyA_row_ne, aCell_modifyA_col_ne,
    aCell_modifyB, set_node_aCell, set_dynamic_aCell,
    modifyA_a_length, modifyA_row_length, modifyA_net_size,
    hA, hrow, h3, h5, hg]

/-- C4 witness at the concrete transistor and system of `c4_pair`. -/
theorem bjt_stamp_coupling_spec_witness :
    (c4_pair.2.a_matrix.length = c4_pair.2.net_size ∧
     (∀ r, r < c4_pair.2.net_size →
        (nthD c4_pair.2.a_matrix r []).length = c4_pair.2.net_size) ∧
     c4_pair.1.l0 < c4_pair.2.net_size ∧ c4_pair.1.l1 < c4_pair.2.net_size ∧
     c4_pair.1.l2 < c4_pair.2.net_size ∧ c4_pair.1.l3 < c4_pair.2.net_size) ∧
    (BJTCouplingContributions c4_pair.1 c4_pair.2 ∧
     AgreeExceptA [(c4_pair.1.l2, c4_pair.1.l0), (c4_pair.1.l0, c4_pair.1.l2),
        (c4_pair.1.l3, c4_pair.1.l1), (c4_pair.1.l1, c4_pair.1.l3)]
       ((bjtWith c4_pair.1 TransistorType.NPN).stamp c4_pair.2)
       ((bjtWith c4_pair.1 TransistorType.PNP).stamp c4_pair.2)) :=
  ⟨⟨by decide, by decide, by decide, by decide, by decide, by decide⟩,
   bjt_stamp_coupling_spec c4_pair.1 c4_pair.2 (by decide) (by decide)
     (by decide) (by decide) (by decide) (by decide)
     (by decide) (by decide) (by decide) (by decide)
     (by decide) (by decide) (by decide) (by decide)
     (by decide) (by decide) (by decide) (by decide)
     (by decide) (by decide) (by decide) (by decide) (by decide) (by decide)⟩

/-! ### Claim theorems: construction-time validation -/

/-- Concrete two-node system for the C6 counterexample. -/
def c6_m : MNASystem := MNASystem.empty.set_size 2

/-- C6 counterexample: constructing a resistor with a negative
resistance and an out-of-range pin index succeeds — the constructor
stores the invalid parameters and nothing is refused or flagged. -/
theorem construction_no_validation_counterexample :
    Resistor.new c6_m (-1) 0 5 = ({ r := -1, l0 := 0, l1 := 5 }, c6_m) := rfl

/-- C6 (amended): `Resistor::new` and `Capacitor::new` perform no
validation whatsoever: arbitrary (including negative) values and
arbitrary (including out-of-range) pin indices are accepted, the fields
are stored as given, and the only system effect is the capacitor's
reservation of one net and one pool slot. -/
theorem construction_accepts_any_netlist :
    (∀ (m : MNASystem) (r : ℚ) (l0 l1 : ℕ),
      Resistor.new m r l0 l1 = ({ r := r, l0 := l0, l1 := l1 }, m)) ∧
    (∀ (m : MNASystem) (c : ℚ) (l0 l1 : ℕ),
      (Capacitor.new m c l0 l1).1 =
        { c := c, l0 := l0, l1 := l1, l2 := m.net_size,
          state_var := 0, dyn_index := m.vars.length, voltage := 0 } ∧
      (Capacitor.new m c l0 l1).2 =
        { m.set_size (m.net_size + 1) with
            vars := (m.set_size (m.net_size + 1)).vars ++ [0] }) :=
  ⟨fun _ _ _ _ => rfl, fun _ _ _ _ => ⟨rfl, rfl⟩⟩

/-! ### Claim theorems: unit formatter -/

/-- C7 (code bug): at `v = 1e12` the computed suffix index is `8`, the
clamp `suff > UNIT_VALUE_MAX` with `UNIT_VALUE_MAX = 8` does not engage,
and indexing the eight-element suffix table at `8` is out of bounds —
the call does not return normally (modelled as `none`). -/
theorem format_unit_value_oob_at_1e12 :
    format_unit_value ((10 : ℝ) ^ (12 : ℕ)) "F" = none := by
  have hlog : Real.logb 10 ((10 : ℝ) ^ (12 : ℕ)) = (12 : ℝ) := by
    rw [← Real.rpow_natCast 10 12, Real.logb_rpow (by norm_num) (by norm_num)]
    norm_num
  have htr : rust_trunc (Real.logb 10 ((10 : ℝ) ^ (12 : ℕ))) = 12 := by
    rw [hlog]
    simp only [rust_trunc]
    rw [if_neg (by norm_num)]
    norm_num
  have hone : ¬ ((10 : ℝ) ^ (12 : ℕ) < 1) := by
    push_neg
    exact one_le_pow₀ (by norm_num)
  have hidx : format_suffix_index ((10 : ℝ) ^ (12 : ℕ)) = 8 := by
    simp only [format_suffix_index, htr, UNIT_VALUE_OFFSET, UNIT_VALUE_MAX]
    rw [if_neg hone]
    decide
  simp only [format_unit_value, hidx]
  rfl
